import Mathlib

/-!
Verification development for the subgen video-subtitle pipeline
(src/subgen.py): a shallow embedding of its data model and operations,
with theorems about discovery, filtering, gating and batch accounting.

Conventions of the embedding:
 -  A filesystem path is its list of components (root first).
 -  A directory tree is a rose tree of named entries; a directory carries a
    flag saying whether reading it fails with a permission error.
 -  Python string operations used by the code (str.lower, comparison,
    pathlib suffix and stem handling) are modeled on the character lists
    of Lean strings, by Unicode code point, matching Python semantics on
    the ASCII data the program manipulates.
 -  Effectful steps of the script (probing the whisper CLI, invoking it,
    prompting) are recorded as an event trace; printed lines are collected
    in order in an output list.
-/

namespace Subgen

/-- A filesystem path, as its list of components, root first. -/
abbrev FsPath := List String

/-! ## Python string primitives -/

/-- Models Python str.lower on the character list of a string (ASCII case
folding; the data compared by the program is ASCII). -/
def pyLower (s : String) : String := ⟨s.data.map Char.toLower⟩

/-- Code-point lexicographic comparison of character lists, as Python
compares strings. -/
def strLtAux : List Char → List Char → Bool
  | [], [] => false
  | [], _ :: _ => true
  | _ :: _, [] => false
  | a :: as, b :: bs =>
    if a.toNat < b.toNat then true
    else if b.toNat < a.toNat then false
    else strLtAux as bs

/-- Models the Python string comparison s1 < s2 (lexicographic by code
point). -/
def strLt (a b : String) : Bool := strLtAux a.data b.data

/-! ## pathlib name handling: suffix, stem, with_suffix -/

/-- Index of the last dot in a character list, if any. -/
def lastDotIdx : List Char → Option Nat
  | [] => none
  | c :: cs =>
    match lastDotIdx cs with
    | some i => some (i + 1)
    | none => if c = '.' then some 0 else none

/-- Models pathlib PurePath.suffix on a file name: the part from the last
dot on, provided that dot is neither the first nor the last character;
otherwise the empty string. -/
def pySuffix (name : String) : String :=
  match lastDotIdx name.data with
  | none => ""
  | some i => if 0 < i ∧ i + 1 < name.data.length then ⟨name.data.drop i⟩ else ""

/-- Models pathlib PurePath.stem on a file name: the name with its suffix
removed (the whole name when there is no suffix). -/
def pyStem (name : String) : String :=
  match lastDotIdx name.data with
  | none => name
  | some i => if 0 < i ∧ i + 1 < name.data.length then ⟨name.data.take i⟩ else name

/-- The file name of a path: its last component (empty for the empty
path). -/
def fileName (p : FsPath) : String := p.getLast?.getD ""

/-- Models str(path) for a POSIX path: components joined by slashes; the
empty path prints as the current directory, as pathlib does. -/
def pathStr (p : FsPath) : String :=
  match p with
  | [] => "."
  | _ => String.intercalate "/" p

/-- Models path.with_suffix applied with the subtitle extension: same
directory, name replaced by stem plus the srt extension
(src/subgen.py line 190). -/
def withSuffixSrt (p : FsPath) : FsPath :=
  p.dropLast ++ [pyStem (fileName p) ++ ".srt"]

/-! ## Path ordering and Python list.sort

The script sorts the discovered paths with list.sort, comparing pathlib
paths, that is lexicographically on their components. Python list.sort is
a stable sort, and a stable sort with a fixed comparison has a unique
result, so it is modeled by a stable insertion sort. -/

/-- Lexicographic order on paths by components: the order in which the
sorted discovery list is returned. -/
def pathLe : FsPath → FsPath → Bool
  | [], _ => true
  | _ :: _, [] => false
  | a :: as, b :: bs =>
    if strLt a b then true
    else if strLt b a then false
    else pathLe as bs

/-- One step of stable insertion sort with respect to `pathLe`. -/
def insertLe (a : FsPath) : List FsPath → List FsPath
  | [] => [a]
  | b :: bs => if pathLe a b then a :: b :: bs else b :: insertLe a bs

/-- Models Python list.sort on a list of paths (stable, so any stable sort
gives the identical result). -/
def pySort : List FsPath → List FsPath
  | [] => []
  | a :: as => insertLe a (pySort as)

/-! ## The directory tree and os.walk -/

/-- A directory tree entry: a regular file, or a directory with a flag
telling whether listing it raises a permission error, and its children. -/
inductive FSEntry where
  | file : String → FSEntry
  | dir : String → Bool → List FSEntry → FSEntry

/-- The name of an entry. -/
def entryName : FSEntry → String
  | .file n => n
  | .dir n _ _ => n

/-- The names of the entries of one directory level. -/
def names : List FSEntry → List String
  | [] => []
  | e :: es => entryName e :: names es

/-- The file paths produced by os.walk started at `r` over the entries
`es`, in traversal order.  os.walk is invoked with its default
onerror=None, so a directory whose listing raises a permission error is
skipped silently and the walk continues with its siblings; no exception
escapes into the caller.  The per-level dirs.sort() and files.sort() of
src/subgen.py lines 34 and 35 only affect the intermediate order, which
the final list.sort at line 46 makes irrelevant, so entries are collected
here in tree order. -/
def walkMany : FsPath → List FSEntry → List FsPath
  | _, [] => []
  | r, .file n :: es => (r ++ [n]) :: walkMany r es
  | r, .dir _ true _ :: es => walkMany r es
  | r, .dir n false sub :: es => walkMany (r ++ [n]) sub ++ walkMany r es

/-- All regular-file paths of the tree, whether or not a permission error
protects them: the reference collection the walk is compared against. -/
def allFilesMany : FsPath → List FSEntry → List FsPath
  | _, [] => []
  | r, .file n :: es => (r ++ [n]) :: allFilesMany r es
  | r, .dir n _ sub :: es => allFilesMany (r ++ [n]) sub ++ allFilesMany r es

/-- No directory of the tree raises a permission error. -/
def noDenied : List FSEntry → Bool
  | [] => true
  | .file _ :: es => noDenied es
  | .dir _ d sub :: es => !d && (noDenied sub && noDenied es)

/-- Well-formed tree: sibling entries have pairwise distinct names, as on a
real filesystem. -/
def wfEntries : List FSEntry → Bool
  | [] => true
  | .file n :: es => !(names es).contains n && wfEntries es
  | .dir n _ sub :: es => !(names es).contains n && (wfEntries sub && wfEntries es)

/-! ## The video classifier and discovery -/

/-- The fixed recognized video extension set of src/subgen.py lines 14-17. -/
def VIDEO_EXTENSIONS : List String :=
  [".mp4", ".avi", ".mkv", ".mov", ".wmv", ".flv", ".webm",
   ".m4v", ".3gp", ".ogv", ".ts", ".mts", ".m2ts"]

/-- The extension classifier of src/subgen.py line 38: the lowercased
pathlib suffix of the file name belongs to the recognized set. -/
def isVideoName (name : String) : Bool :=
  VIDEO_EXTENSIONS.contains (pyLower (pySuffix name))

/-- The classifier applied to a full path (pathlib suffix only inspects the
last component). -/
def isVideoPath (p : FsPath) : Bool := isVideoName (fileName p)

/-- Models find_video_files of src/subgen.py lines 19-47: walk the tree,
keep the files the classifier accepts, and sort the result. -/
def find_video_files (root : FsPath) (es : List FSEntry) : List FsPath :=
  pySort ((walkMany root es).filter isVideoPath)

/-! ## The external engine, the run environment, and the CLI pipeline -/

/-- What one subprocess invocation of the whisper CLI does on a given
file: the launch itself raises (for example the executable disappeared),
or the process runs and exits with a code and a diagnostic stream. -/
inductive EngineOutcome where
  | launchError : String → EngineOutcome
  | exited : Nat → String → EngineOutcome

/-- The ambient state one run of the script executes against. -/
structure Env where
  /-- The directory argument of the CLI. -/
  root : FsPath
  /-- Whether the directory argument exists. -/
  rootExists : Bool
  /-- Whether the directory argument is a directory. -/
  rootIsDir : Bool
  /-- Result of the capability probe: whisper --help exits 0 within the
  timeout. -/
  whisperInstalled : Bool
  /-- The entries of the target directory. -/
  entries : List FSEntry
  /-- Existence of a file on disk, queried for subtitle artifacts. -/
  srtExists : FsPath → Bool
  /-- Behavior of the whisper subprocess on each video file. -/
  engine : FsPath → EngineOutcome
  /-- The operator reply read by the confirmation prompt. -/
  response : String

/-- The parsed CLI options of src/subgen.py lines 106-153. -/
structure Args where
  model : String
  overrideExisting : Bool
  dryRun : Bool
  language : Option String

/-- The observable effectful steps of one run. -/
inductive Event where
  /-- check_whisper_installed ran the capability probe. -/
  | probe : Event
  /-- subprocess.run was called on the whisper command line. -/
  | engineInvoke : List String → Event
  /-- The confirmation prompt blocked on operator input. -/
  | prompt : Event
  /-- The per-item success or failure outcome was recorded into the
  aggregate counters. -/
  | outcome : FsPath → Bool → Event
deriving DecidableEq

/-- The whisper command line built at src/subgen.py lines 78-89: file,
model, output directory = the parent of the file, srt format, and the
language flag added only when args.language is truthy (Python `if
language:` is false both for None and for the empty string). -/
def whisperCmd (p : FsPath) (model : String) (language : Option String) : List String :=
  ["whisper", pathStr p, "--model", model,
   "--output_dir", pathStr p.dropLast, "--output_format", "srt"] ++
  (match language with
   | none => []
   | some l => if l = "" then [] else ["--language", l])

/-- Result of processing one item. -/
structure ItemResult where
  ok : Bool
  events : List Event
  output : List String

/-- Models generate_subtitle of src/subgen.py lines 63-104: run whisper on
the file, report, and return success; every exception is caught and turned
into a False return. -/
def generate_subtitle (env : Env) (p : FsPath) (model : String)
    (language : Option String) : ItemResult :=
  let cmd := whisperCmd p model language
  let processing := "Processing: " ++ fileName p
  match env.engine p with
  | .launchError msg =>
    { ok := false
      events := [.engineInvoke cmd]
      output := [processing, "✗ Error processing " ++ fileName p ++ ": " ++ msg] }
  | .exited code stderr =>
    if code = 0 then
      { ok := true
        events := [.engineInvoke cmd]
        output := [processing, "✓ Generated subtitles for: " ++ fileName p] }
    else
      { ok := false
        events := [.engineInvoke cmd]
        output := [processing,
                   "✗ Failed to generate subtitles for: " ++ fileName p,
                   "Error: " ++ stderr] }

/-- Aggregate state of the processing loop. -/
structure BatchResult where
  successful : Nat
  failed : Nat
  events : List Event
  output : List String

/-- The processing loop of src/subgen.py lines 223-227: each selected file
in order, one outcome recorded per file. -/
def runBatch (env : Env) (args : Args) : List FsPath → BatchResult
  | [] => { successful := 0, failed := 0, events := [], output := [] }
  | p :: ps =>
    let r := generate_subtitle env p args.model args.language
    let rest := runBatch env args ps
    { successful := (if r.ok then 1 else 0) + rest.successful
      failed := (if r.ok then 0 else 1) + rest.failed
      events := r.events ++ [.outcome p r.ok] ++ rest.events
      output := r.output ++ rest.output }

/-- The affirmative test of src/subgen.py line 214: the lowercased reply is
a member of the list of the two accepted strings. The reply is not
trimmed. -/
def affirmative (r : String) : Bool :=
  pyLower r == "y" || pyLower r == "yes"

/-- The skip-existing filter loop of src/subgen.py lines 188-195: a
candidate whose same-stem srt sibling exists goes to the skipped list (and
is reported), the rest keep their order in the selected list. -/
def filterExisting (srtEx : FsPath → Bool) :
    List FsPath → List FsPath × List FsPath
  | [] => ([], [])
  | v :: vs =>
    let rest := filterExisting srtEx vs
    if srtEx (withSuffixSrt v) then (rest.1, v :: rest.2)
    else (v :: rest.1, rest.2)

/-- The existing-artifact policy step of src/subgen.py lines 186-200: with
override-existing the candidate list is untouched, otherwise it is
partitioned by artifact existence. -/
def applyPolicy (srtEx : FsPath → Bool) (overrideExisting : Bool)
    (vs : List FsPath) : List FsPath × List FsPath :=
  if overrideExisting then (vs, []) else filterExisting srtEx vs

/-- The discovery result of a run. -/
def videoFilesOf (env : Env) : List FsPath :=
  find_video_files env.root env.entries

/-- The candidates selected for processing by the existing-artifact step of
a run. -/
def selectedOf (env : Env) (args : Args) : List FsPath :=
  (applyPolicy env.srtExists args.overrideExisting (videoFilesOf env)).1

/-- Whether processing one file succeeds (the boolean generate_subtitle
returns for it). -/
def genOk (env : Env) (args : Args) (p : FsPath) : Bool :=
  (generate_subtitle env p args.model args.language).ok

/-- Recognizer of recorded per-item outcomes in a trace. -/
def isOutcomeEvent : Event → Bool
  | .outcome _ _ => true
  | _ => false

/-- Everything one run produces. -/
structure RunResult where
  /-- The argument of sys.exit. -/
  exitCode : Nat
  /-- Final value of the successful counter. -/
  successful : Nat
  /-- Final value of the failed counter. -/
  failed : Nat
  events : List Event
  output : List String

/-- Models main of src/subgen.py lines 155-235, line by line: validation,
capability probe (short-circuited away in dry-run), discovery, the
existing-artifact filter, the dry-run exit, the confirmation gate, the
batch loop and the exit status. Quote characters that the script prints
around interpolated values are left out of the message strings. -/
def main (env : Env) (args : Args) : RunResult :=
  if !env.rootExists then
    { exitCode := 1, successful := 0, failed := 0, events := []
      output := ["Error: Directory " ++ pathStr env.root ++ " does not exist"] }
  else if !env.rootIsDir then
    { exitCode := 1, successful := 0, failed := 0, events := []
      output := ["Error: " ++ pathStr env.root ++ " is not a directory"] }
  else
    -- line 171: `not args.dry_run and not check_whisper_installed()`;
    -- the probe runs exactly when dry-run is off.
    let probeEvents : List Event := if args.dryRun then [] else [.probe]
    if !args.dryRun && !env.whisperInstalled then
      { exitCode := 1, successful := 0, failed := 0, events := probeEvents
        output := ["Error: Whisper CLI is not installed or not in PATH",
                   "Install it with: pip install openai-whisper"] }
    else
      let out0 := ["Scanning for video files in: " ++ pathStr env.root]
      let videoFiles := videoFilesOf env
      if videoFiles.isEmpty then
        { exitCode := 0, successful := 0, failed := 0, events := probeEvents
          output := out0 ++ ["No video files found"] }
      else
        let out1 := out0 ++
          ["Found " ++ Nat.repr videoFiles.length ++ " video file(s)"]
        let sel := applyPolicy env.srtExists args.overrideExisting videoFiles
        let out2 := out1 ++ sel.2.map
          (fun v => "Skipping " ++ fileName v ++ " (subtitle already exists)")
        if !args.overrideExisting && sel.1.isEmpty then
          { exitCode := 0, successful := 0, failed := 0, events := probeEvents
            output := out2 ++
              ["All video files already have subtitles",
               "Use --override-existing to regenerate existing subtitles"] }
        else
          let out3 := out2 ++
            ["Will process " ++ Nat.repr sel.1.length ++
             " video file(s) with model " ++ args.model ++ ":"] ++
            sel.1.map (fun v => "  - " ++ pathStr v)
          if args.dryRun then
            { exitCode := 0, successful := 0, failed := 0, events := probeEvents
              output := out3 ++ ["Dry run complete - no subtitles were generated"] }
          else if decide (1 < sel.1.length) && !affirmative env.response then
            { exitCode := 0, successful := 0, failed := 0
              events := probeEvents ++ [.prompt]
              output := out3 ++ ["Cancelled"] }
          else
            let gateEvents :=
              if 1 < sel.1.length then probeEvents ++ [.prompt] else probeEvents
            let br := runBatch env args sel.1
            { exitCode := if br.failed = 0 then 0 else 1
              successful := br.successful
              failed := br.failed
              events := gateEvents ++ br.events
              output := out3 ++
                ["Generating subtitles using Whisper model " ++ args.model ++ "..."] ++
                br.output ++
                ["Completed processing " ++ Nat.repr sel.1.length ++ " video file(s)",
                 "✓ Successful: " ++ Nat.repr br.successful] ++
                (if 0 < br.failed then ["✗ Failed: " ++ Nat.repr br.failed] else []) }

/-! ## Concrete runs used as test vectors -/

/-- Default CLI options: skip-existing policy, no dry run, default model,
auto-detected language. -/
def argsRun : Args :=
  { model := "large-v3", overrideExisting := false, dryRun := false,
    language := none }

/-- The same options with dry-run switched on. -/
def argsDry : Args :=
  { model := "large-v3", overrideExisting := false, dryRun := true,
    language := none }

/-- A run against one video file, everything healthy, in dry-run mode. -/
def envDry : Env :=
  { root := ["r"], rootExists := true, rootIsDir := true,
    whisperInstalled := false, entries := [.file "a.mp4"],
    srtExists := fun _ => false, engine := fun _ => .exited 0 "",
    response := "" }

/-- Three videos, no artifacts, the engine failing on the second file
only, the operator confirming. -/
def envThree : Env :=
  { root := ["r"], rootExists := true, rootIsDir := true,
    whisperInstalled := true,
    entries := [.file "a.mp4", .file "b.mp4", .file "c.mp4"],
    srtExists := fun _ => false,
    engine := fun p => if p = ["r", "b.mp4"] then .exited 1 "boom" else .exited 0 "",
    response := "y" }

/-- Two videos, no artifacts, the operator answering no at the prompt. -/
def envTwo : Env :=
  { root := ["r"], rootExists := true, rootIsDir := true,
    whisperInstalled := true,
    entries := [.file "a.mp4", .file "b.mp4"],
    srtExists := fun _ => false, engine := fun _ => .exited 0 "",
    response := "no" }

/-- An existing empty target directory, with the whisper CLI present. -/
def envEmpty : Env :=
  { root := ["r"], rootExists := true, rootIsDir := true,
    whisperInstalled := true, entries := [],
    srtExists := fun _ => false, engine := fun _ => .exited 0 "",
    response := "" }

/-- An existing empty target directory, with the whisper CLI absent. -/
def envEmptyNoWhisper : Env :=
  { root := ["r"], rootExists := true, rootIsDir := true,
    whisperInstalled := false, entries := [],
    srtExists := fun _ => false, engine := fun _ => .exited 0 "",
    response := "" }

/-- A directory with a permission-denied subdirectory that contains a
video, next to an accessible sibling video. -/
def envDenied : Env :=
  { root := ["root"], rootExists := true, rootIsDir := true,
    whisperInstalled := true,
    entries := [.dir "locked" true [.file "inside.mp4"], .file "video.mp4"],
    srtExists := fun _ => false, engine := fun _ => .exited 0 "",
    response := "" }

/-- Two videos with a launch failure on the first: the executable
disappears while processing it. -/
def envLaunch : Env :=
  { root := ["r"], rootExists := true, rootIsDir := true,
    whisperInstalled := true,
    entries := [.file "a.mp4", .file "b.mp4"],
    srtExists := fun _ => false,
    engine := fun p =>
      if p = ["r", "a.mp4"] then .launchError "No such file or directory: whisper"
      else .exited 0 "",
    response := "y" }

/-! ## Order facts about the string and path comparisons -/

theorem char_toNat_inj {a b : Char} (h : a.toNat = b.toNat) : a = b :=
  Char.eq_of_val_eq (UInt32.toNat.inj h)

theorem strLtAux_eq_of_not {as bs : List Char}
    (h1 : strLtAux as bs = false) (h2 : strLtAux bs as = false) : as = bs := by
  induction as generalizing bs with
  | nil =>
    cases bs with
    | nil => rfl
    | cons b bs => simp [strLtAux] at h1
  | cons a as ih =>
    cases bs with
    | nil => simp [strLtAux] at h2
    | cons b bs =>
      simp only [strLtAux] at h1 h2
      by_cases hab : a.toNat < b.toNat
      · simp [hab] at h1
      · by_cases hba : b.toNat < a.toNat
        · simp [hba] at h2
        · have hab' : a = b := char_toNat_inj (by omega)
          subst hab'
          simp [hab] at h1 h2
          rw [ih h1 h2]

theorem strLt_eq_of_not {a b : String} (h1 : strLt a b = false)
    (h2 : strLt b a = false) : a = b := by
  cases a
  cases b
  simp only [strLt] at h1 h2
  exact congrArg String.mk (strLtAux_eq_of_not h1 h2)

theorem strLtAux_trans {as bs cs : List Char} (h1 : strLtAux as bs = true)
    (h2 : strLtAux bs cs = true) : strLtAux as cs = true := by
  induction as generalizing bs cs with
  | nil =>
    cases cs with
    | nil =>
      cases bs with
      | nil => exact h1
      | cons b bs => simp [strLtAux] at h2
    | cons c cs => simp [strLtAux]
  | cons a as ih =>
    cases bs with
    | nil => simp [strLtAux] at h1
    | cons b bs =>
      cases cs with
      | nil => simp [strLtAux] at h2
      | cons c cs =>
        simp only [strLtAux] at h1 h2 ⊢
        by_cases hab : a.toNat < b.toNat
        · by_cases hbc : b.toNat < c.toNat
          · simp [show a.toNat < c.toNat by omega]
          · by_cases hcb : c.toNat < b.toNat
            · simp [hbc, hcb] at h2
            · simp [show a.toNat < c.toNat by omega]
        · by_cases hba : b.toNat < a.toNat
          · simp [hab, hba] at h1
          · have hab' : a = b := char_toNat_inj (by omega)
            subst hab'
            simp [hab] at h1
            by_cases hbc : a.toNat < c.toNat
            · simp [hbc]
            · by_cases hcb : c.toNat < a.toNat
              · simp [hbc, hcb] at h2
              · rw [if_neg hbc, if_neg hcb] at h2 ⊢
                exact ih h1 h2

theorem strLt_trans {a b c : String} (h1 : strLt a b = true)
    (h2 : strLt b c = true) : strLt a c = true :=
  strLtAux_trans h1 h2

theorem pathLe_total (a b : FsPath) : pathLe a b = true ∨ pathLe b a = true := by
  induction a generalizing b with
  | nil => left; simp [pathLe]
  | cons x xs ih =>
    cases b with
    | nil => right; simp [pathLe]
    | cons y ys =>
      by_cases hxy : strLt x y = true
      · left; simp [pathLe, hxy]
      · by_cases hyx : strLt y x = true
        · right; simp [pathLe, hyx]
        · have hxy' : strLt x y = false := by simpa using hxy
          have hyx' : strLt y x = false := by simpa using hyx
          have hx : x = y := strLt_eq_of_not hxy' hyx'
          subst hx
          rcases ih ys with h | h
          · left; simp [pathLe, hxy', h]
          · right; simp [pathLe, hxy', h]

theorem pathLe_trans {a b c : FsPath} (h1 : pathLe a b = true)
    (h2 : pathLe b c = true) : pathLe a c = true := by
  induction a generalizing b c with
  | nil => simp [pathLe]
  | cons x xs ih =>
    cases b with
    | nil => simp [pathLe] at h1
    | cons y ys =>
      cases c with
      | nil => simp [pathLe] at h2
      | cons z zs =>
        simp only [pathLe] at h1 h2 ⊢
        by_cases hxy : strLt x y = true
        · by_cases hyz : strLt y z = true
          · simp [strLt_trans hxy hyz]
          · by_cases hzy : strLt z y = true
            · simp [hyz, hzy] at h2
            · have hy : y = z :=
                strLt_eq_of_not (by simpa using hyz) (by simpa using hzy)
              subst hy
              simp [hxy]
        · by_cases hyx : strLt y x = true
          · simp [hxy, hyx] at h1
          · have hx : x = y :=
              strLt_eq_of_not (by simpa using hxy) (by simpa using hyx)
            subst hx
            simp [hxy] at h1
            by_cases hyz : strLt x z = true
            · simp [hyz]
            · by_cases hzy : strLt z x = true
              · simp [hyz, hzy] at h2
              · rw [if_neg hyz, if_neg hzy] at h2 ⊢
                exact ih h1 h2

/-! ## The sort returns a sorted permutation -/

/-- Sortedness by full path: every element is `pathLe` every later one. -/
abbrev PathSorted (l : List FsPath) : Prop :=
  l.Pairwise (fun a b => pathLe a b = true)

theorem insertLe_perm (a : FsPath) (l : List FsPath) :
    List.Perm (insertLe a l) (a :: l) := by
  induction l with
  | nil => simp [insertLe]
  | cons b bs ih =>
    simp only [insertLe]
    by_cases h : pathLe a b = true
    · simp [h]
    · simp only [h, if_false]
      exact (ih.cons b).trans (List.Perm.swap a b bs)

theorem pySort_perm (l : List FsPath) : List.Perm (pySort l) l := by
  induction l with
  | nil => simp [pySort]
  | cons a as ih =>
    simp only [pySort]
    exact (insertLe_perm a (pySort as)).trans (ih.cons a)

theorem mem_pySort {p : FsPath} {l : List FsPath} : p ∈ pySort l ↔ p ∈ l :=
  (pySort_perm l).mem_iff

theorem insertLe_pairwise {a : FsPath} {l : List FsPath} (h : PathSorted l) :
    PathSorted (insertLe a l) := by
  induction l with
  | nil => simp [insertLe, PathSorted]
  | cons b bs ih =>
    rcases List.pairwise_cons.mp h with ⟨hb, hbs⟩
    simp only [insertLe]
    by_cases hab : pathLe a b = true
    · rw [if_pos hab]
      refine List.pairwise_cons.mpr ⟨?_, h⟩
      intro x hx
      rcases List.mem_cons.mp hx with rfl | hx
      · exact hab
      · exact pathLe_trans hab (hb x hx)
    · have hba : pathLe b a = true := by
        rcases pathLe_total a b with hh | hh
        · exact absurd hh hab
        · exact hh
      rw [if_neg hab]
      refine List.pairwise_cons.mpr ⟨?_, ih hbs⟩
      intro x hx
      rcases List.mem_cons.mp ((insertLe_perm a bs).mem_iff.mp hx) with rfl | hx2
      · exact hba
      · exact hb x hx2

theorem pySort_sorted (l : List FsPath) : PathSorted (pySort l) := by
  induction l with
  | nil => simp [pySort, PathSorted]
  | cons a as ih => exact insertLe_pairwise ih

theorem pySort_nodup {l : List FsPath} (h : l.Nodup) : (pySort l).Nodup :=
  (pySort_perm l).symm.nodup h

/-! ## Walk lemmas -/

theorem walk_shape (r : FsPath) (es : List FSEntry) :
    ∀ p ∈ walkMany r es, ∃ n, n ∈ names es ∧ ∃ t, p = r ++ n :: t := by
  induction r, es using walkMany.induct with
  | case1 r => simp [walkMany]
  | case2 r n es ih =>
    intro p hp
    simp only [walkMany, List.mem_cons] at hp
    rcases hp with rfl | hp
    · exact ⟨n, by simp [names, entryName], [], by simp⟩
    · obtain ⟨m, hm, t, ht⟩ := ih p hp
      exact ⟨m, by simp [names, hm], t, ht⟩
  | case3 r n sub es ih =>
    intro p hp
    simp only [walkMany] at hp
    obtain ⟨m, hm, t, ht⟩ := ih p hp
    exact ⟨m, by simp [names, hm], t, ht⟩
  | case4 r n sub es ih1 ih2 =>
    intro p hp
    simp only [walkMany, List.mem_append] at hp
    rcases hp with hp | hp
    · obtain ⟨m, hm, t, ht⟩ := ih1 p hp
      exact ⟨n, by simp [names, entryName], m :: t, by simp [ht]⟩
    · obtain ⟨m, hm, t, ht⟩ := ih2 p hp
      exact ⟨m, by simp [names, hm], t, ht⟩

theorem walk_nodup (r : FsPath) (es : List FSEntry)
    (hwf : wfEntries es = true) : (walkMany r es).Nodup := by
  induction r, es using walkMany.induct with
  | case1 r => simp [walkMany]
  | case2 r n es ih =>
    simp only [wfEntries, Bool.and_eq_true] at hwf
    have hn : n ∉ names es := by simpa using hwf.1
    simp only [walkMany]
    refine List.nodup_cons.mpr ⟨?_, ih hwf.2⟩
    intro hmem
    obtain ⟨m, hm, t, ht⟩ := walk_shape r es _ hmem
    have h1 : [n] = m :: t := List.append_cancel_left ht
    injection h1 with h1a h1b
    exact hn (h1a ▸ hm)
  | case3 r n sub es ih =>
    simp only [wfEntries, Bool.and_eq_true] at hwf
    simpa [walkMany] using ih hwf.2.2
  | case4 r n sub es ih1 ih2 =>
    simp only [wfEntries, Bool.and_eq_true] at hwf
    have hn : n ∉ names es := by simpa using hwf.1
    simp only [walkMany]
    rw [List.nodup_append]
    refine ⟨ih1 hwf.2.1, ih2 hwf.2.2, ?_⟩
    intro p hp1 hp2
    obtain ⟨m1, hm1, t1, ht1⟩ := walk_shape _ _ _ hp1
    obtain ⟨m2, hm2, t2, ht2⟩ := walk_shape _ _ _ hp2
    rw [ht1] at ht2
    have h1 : n :: m1 :: t1 = m2 :: t2 := by
      rw [List.append_assoc] at ht2
      simpa using List.append_cancel_left ht2
    injection h1 with h1a h1b
    exact hn (h1a ▸ hm2)

theorem walk_eq_allFiles (r : FsPath) (es : List FSEntry)
    (hacc : noDenied es = true) : walkMany r es = allFilesMany r es := by
  induction r, es using walkMany.induct with
  | case1 r => simp [walkMany, allFilesMany]
  | case2 r n es ih =>
    simp only [noDenied] at hacc
    simp [walkMany, allFilesMany, ih hacc]
  | case3 r n sub es ih =>
    simp only [noDenied, Bool.and_eq_true] at hacc
    simp at hacc
  | case4 r n sub es ih1 ih2 =>
    simp only [noDenied, Bool.and_eq_true] at hacc
    simp [walkMany, allFilesMany, ih1 hacc.2.1, ih2 hacc.2.2]

/-! ## Claim C1: discovery returns a sorted duplicate-free list of exactly
the recognized video files -/

/-- C1. For every accessible well-formed directory tree, find_video_files
returns a list sorted by full path, without duplicates, containing exactly
those regular files of the tree whose extension, compared
case-insensitively, is in the fixed recognized video-extension set. -/
theorem find_video_files_spec (root : FsPath) (es : List FSEntry)
    (hwf : wfEntries es = true) (hacc : noDenied es = true) :
    PathSorted (find_video_files root es) ∧
    (find_video_files root es).Nodup ∧
    ∀ p, p ∈ find_video_files root es ↔
      p ∈ allFilesMany root es ∧
        pyLower (pySuffix (fileName p)) ∈ VIDEO_EXTENSIONS := by
  refine ⟨pySort_sorted _, ?_, ?_⟩
  · exact pySort_nodup (List.Nodup.filter _ (walk_nodup root es hwf))
  · intro p
    rw [find_video_files, mem_pySort, List.mem_filter,
      walk_eq_allFiles root es hacc]
    constructor
    · rintro ⟨h1, h2⟩
      refine ⟨h1, ?_⟩
      simpa [isVideoPath, isVideoName] using h2
    · rintro ⟨h1, h2⟩
      refine ⟨h1, ?_⟩
      simpa [isVideoPath, isVideoName] using h2

/-- Witness for C1 at a concrete tree: mixed-case extensions, a non-video
file, and a nested directory. -/
theorem find_video_files_spec_witness :
    wfEntries
        [FSEntry.file "b.MKV", .file "a.mp4", .file "notes.txt",
         .dir "sub" false [.file "c.avi"]] = true ∧
    noDenied
        [FSEntry.file "b.MKV", .file "a.mp4", .file "notes.txt",
         .dir "sub" false [.file "c.avi"]] = true ∧
    PathSorted (find_video_files ["r"]
        [FSEntry.file "b.MKV", .file "a.mp4", .file "notes.txt",
         .dir "sub" false [.file "c.avi"]]) ∧
    (["r", "notes.txt"] ∈ find_video_files ["r"]
        [FSEntry.file "b.MKV", .file "a.mp4", .file "notes.txt",
         .dir "sub" false [.file "c.avi"]] ↔
      ["r", "notes.txt"] ∈ allFilesMany ["r"]
        [FSEntry.file "b.MKV", .file "a.mp4", .file "notes.txt",
         .dir "sub" false [.file "c.avi"]] ∧
        pyLower (pySuffix (fileName ["r", "notes.txt"])) ∈ VIDEO_EXTENSIONS) := by
  have hwf : wfEntries
      [FSEntry.file "b.MKV", .file "a.mp4", .file "notes.txt",
       .dir "sub" false [.file "c.avi"]] = true := by
    simp [wfEntries, names, entryName]
  have hacc : noDenied
      [FSEntry.file "b.MKV", .file "a.mp4", .file "notes.txt",
       .dir "sub" false [.file "c.avi"]] = true := by
    simp [noDenied]
  refine ⟨hwf, hacc, ?_, ?_⟩
  · exact (find_video_files_spec ["r"] _ hwf hacc).1
  · exact (find_video_files_spec ["r"] _ hwf hacc).2.2 _

/-! ## Claim C2: the existing-artifact filter partitions the candidates -/

theorem filterExisting_eq (srtEx : FsPath → Bool) (vs : List FsPath) :
    filterExisting srtEx vs =
      (vs.filter (fun v => !srtEx (withSuffixSrt v)),
       vs.filter (fun v => srtEx (withSuffixSrt v))) := by
  induction vs with
  | nil => rfl
  | cons v vs ih =>
    simp only [filterExisting, ih, List.filter_cons]
    by_cases h : srtEx (withSuffixSrt v) = true
    · simp [h]
    · simp at h
      simp [h]

/-- C2. Under every policy the existing-artifact step partitions the
candidate list: selected and skipped are order-preserving sublists of the
candidates whose concatenation is a permutation of the candidates, and
they are disjoint; under the skip-existing policy a candidate is skipped
exactly when its same-stem srt sibling exists (and selected exactly when
it does not); under the override-existing policy every candidate is
selected and nothing is skipped. -/
theorem applyPolicy_partition (srtEx : FsPath → Bool) (override : Bool)
    (vs : List FsPath) :
    (applyPolicy srtEx override vs).1.Sublist vs ∧
    (applyPolicy srtEx override vs).2.Sublist vs ∧
    List.Perm
      ((applyPolicy srtEx override vs).1 ++ (applyPolicy srtEx override vs).2)
      vs ∧
    (∀ v, v ∈ (applyPolicy srtEx override vs).1 →
      v ∈ (applyPolicy srtEx override vs).2 → False) ∧
    (override = false →
      ∀ v, v ∈ (applyPolicy srtEx override vs).2 ↔
        v ∈ vs ∧ srtEx (withSuffixSrt v) = true) ∧
    (override = false →
      ∀ v, v ∈ (applyPolicy srtEx override vs).1 ↔
        v ∈ vs ∧ srtEx (withSuffixSrt v) = false) ∧
    (override = true →
      (applyPolicy srtEx override vs).1 = vs ∧
      (applyPolicy srtEx override vs).2 = []) := by
  cases override with
  | true =>
    simp only [applyPolicy, if_pos]
    refine ⟨List.Sublist.refl vs, by simp, by simp, by simp, ?_, ?_, by simp⟩
    · intro h; cases h
    · intro h; cases h
  | false =>
    simp only [applyPolicy, if_neg, Bool.false_eq_true, not_false_iff,
      filterExisting_eq]
    refine ⟨List.filter_sublist vs, List.filter_sublist vs, ?_, ?_, ?_, ?_, ?_⟩
    · have hcong : vs.filter (fun v => !(!srtEx (withSuffixSrt v))) =
          vs.filter (fun v => srtEx (withSuffixSrt v)) := by
        apply List.filter_congr
        intro v _
        simp
      have := List.filter_append_perm (fun v => !srtEx (withSuffixSrt v)) vs
      rwa [hcong] at this
    · intro v h1 h2
      rw [List.mem_filter] at h1 h2
      rcases h1 with ⟨_, h1⟩
      rcases h2 with ⟨_, h2⟩
      simp [h2] at h1
    · intro _ v
      rw [List.mem_filter]
    · intro _ v
      rw [List.mem_filter]
      simp
    · intro h; cases h

/-- Witness for C2, the scenario of the specification: a.mp4 has an
existing sibling a.srt and is skipped, b.MKV is selected. -/
theorem applyPolicy_partition_witness :
    List.Perm
      ((applyPolicy (fun p => p == ["a.srt"]) false
          [["a.mp4"], ["b.MKV"]]).1 ++
       (applyPolicy (fun p => p == ["a.srt"]) false
          [["a.mp4"], ["b.MKV"]]).2)
      [["a.mp4"], ["b.MKV"]] ∧
    (["a.mp4"] ∈ (applyPolicy (fun p => p == ["a.srt"]) false
        [["a.mp4"], ["b.MKV"]]).2 ↔
      ["a.mp4"] ∈ [["a.mp4"], ["b.MKV"]] ∧
        (fun (p : FsPath) => p == ["a.srt"]) (withSuffixSrt ["a.mp4"]) = true) ∧
    (["b.MKV"] ∈ (applyPolicy (fun p => p == ["a.srt"]) false
        [["a.mp4"], ["b.MKV"]]).1 ↔
      ["b.MKV"] ∈ [["a.mp4"], ["b.MKV"]] ∧
        (fun (p : FsPath) => p == ["a.srt"]) (withSuffixSrt ["b.MKV"]) = false) := by
  refine ⟨?_, ?_, ?_⟩
  · exact (applyPolicy_partition _ false _).2.2.1
  · exact (applyPolicy_partition _ false _).2.2.2.2.1 rfl _
  · exact (applyPolicy_partition _ false _).2.2.2.2.2.1 rfl _

/-! ## Trace and counter lemmas about the batch loop -/

theorem generate_subtitle_events (env : Env) (p : FsPath) (m : String)
    (lang : Option String) :
    (generate_subtitle env p m lang).events =
      [Event.engineInvoke (whisperCmd p m lang)] := by
  unfold generate_subtitle
  cases env.engine p with
  | launchError msg => rfl
  | exited code stderr =>
    by_cases h : code = 0
    · simp [h]
    · simp [h]

theorem generate_subtitle_ok (env : Env) (p : FsPath) (m : String)
    (lang : Option String) :
    (generate_subtitle env p m lang).ok =
      (match env.engine p with
       | .launchError _ => false
       | .exited code _ => code == 0) := by
  unfold generate_subtitle
  cases env.engine p with
  | launchError msg => rfl
  | exited code stderr =>
    by_cases h : code = 0
    · simp [h]
    · simp [h]

theorem runBatch_events (env : Env) (args : Args) (sel : List FsPath) :
    (runBatch env args sel).events =
      sel.flatMap (fun p =>
        [Event.engineInvoke (whisperCmd p args.model args.language),
         Event.outcome p (genOk env args p)]) := by
  induction sel with
  | nil => simp [runBatch]
  | cons p ps ih =>
    simp only [runBatch, List.flatMap_cons, ih,
      generate_subtitle_events, genOk]
    simp

theorem runBatch_outcomes (env : Env) (args : Args) (sel : List FsPath) :
    ((runBatch env args sel).events.filter isOutcomeEvent) =
      sel.map (fun p => Event.outcome p (genOk env args p)) := by
  rw [runBatch_events]
  induction sel with
  | nil => simp
  | cons p ps ih =>
    simp only [List.flatMap_cons, List.filter_append, ih, List.map_cons]
    simp [isOutcomeEvent]

theorem runBatch_counts (env : Env) (args : Args) (sel : List FsPath) :
    (runBatch env args sel).successful = sel.countP (fun p => genOk env args p) ∧
    (runBatch env args sel).failed = sel.countP (fun p => !genOk env args p) := by
  induction sel with
  | nil => simp [runBatch]
  | cons p ps ih =>
    simp only [runBatch, List.countP_cons, ih.1, ih.2, genOk]
    by_cases h : (generate_subtitle env p args.model args.language).ok = true
    · simp [h]
      omega
    · simp only [Bool.not_eq_true] at h
      simp [h]
      omega

theorem countP_not_add (sel : List FsPath) (f : FsPath → Bool) :
    sel.countP (fun p => f p) + sel.countP (fun p => !f p) = sel.length := by
  induction sel with
  | nil => simp
  | cons p ps ih =>
    simp only [List.countP_cons, List.length_cons]
    by_cases h : f p = true
    · simp [h]
      omega
    · simp only [Bool.not_eq_true] at h
      simp [h]
      omega

/-! ## Control-flow lemmas about main -/

theorem main_cancel (env : Env) (args : Args)
    (h1 : env.rootExists = true) (h2 : env.rootIsDir = true)
    (h3 : args.dryRun = false) (h4 : env.whisperInstalled = true)
    (h5 : videoFilesOf env ≠ [])
    (h6 : args.overrideExisting = false → selectedOf env args ≠ [])
    (hlen : 1 < (selectedOf env args).length)
    (hresp : affirmative env.response = false) :
    (main env args).exitCode = 0 ∧
    (main env args).successful = 0 ∧
    (main env args).failed = 0 ∧
    (main env args).events = [Event.probe, Event.prompt] ∧
    "Cancelled" ∈ (main env args).output := by
  have hEmpty : (videoFilesOf env).isEmpty = false := by
    cases hv : videoFilesOf env with
    | nil => exact absurd hv h5
    | cons a l => rfl
  rw [selectedOf] at hlen
  unfold main
  by_cases hov : args.overrideExisting = true
  · rw [hov] at hlen
    simp [h1, h2, h3, h4, hEmpty, hov, hlen, hresp]
  · have hov' : args.overrideExisting = false := by simpa using hov
    have hsel : ((applyPolicy env.srtExists args.overrideExisting
        (videoFilesOf env)).1).isEmpty = false := by
      cases hv : (applyPolicy env.srtExists args.overrideExisting
          (videoFilesOf env)).1 with
      | nil => exact absurd (by rw [selectedOf]; exact hv) (h6 hov')
      | cons a l => rfl
    rw [hov'] at hlen hsel
    simp [h1, h2, h3, h4, hEmpty, hov', hsel, hlen, hresp]

theorem main_batch (env : Env) (args : Args)
    (h1 : env.rootExists = true) (h2 : env.rootIsDir = true)
    (h3 : args.dryRun = false) (h4 : env.whisperInstalled = true)
    (h5 : videoFilesOf env ≠ [])
    (h6 : args.overrideExisting = false → selectedOf env args ≠ [])
    (h7 : 1 < (selectedOf env args).length → affirmative env.response = true) :
    (main env args).successful =
      (runBatch env args (selectedOf env args)).successful ∧
    (main env args).failed = (runBatch env args (selectedOf env args)).failed ∧
    (main env args).exitCode =
      (if (runBatch env args (selectedOf env args)).failed = 0 then 0 else 1) ∧
    (main env args).events =
      (if 1 < (selectedOf env args).length then [Event.probe, Event.prompt]
       else [Event.probe]) ++ (runBatch env args (selectedOf env args)).events := by
  have hEmpty : (videoFilesOf env).isEmpty = false := by
    cases hv : videoFilesOf env with
    | nil => exact absurd hv h5
    | cons a l => rfl
  rw [selectedOf] at h7 ⊢
  unfold main
  by_cases hov : args.overrideExisting = true
  · rw [hov] at h7 ⊢
    by_cases hlen : 1 < ((applyPolicy env.srtExists true
        (videoFilesOf env)).1).length
    · have haff := h7 hlen
      simp [h1, h2, h3, h4, hEmpty, hov, hlen, haff]
    · simp [h1, h2, h3, h4, hEmpty, hov, hlen]
  · have hov' : args.overrideExisting = false := by simpa using hov
    have hsel : ((applyPolicy env.srtExists args.overrideExisting
        (videoFilesOf env)).1).isEmpty = false := by
      cases hv : (applyPolicy env.srtExists args.overrideExisting
          (videoFilesOf env)).1 with
      | nil => exact absurd (by rw [selectedOf]; exact hv) (h6 hov')
      | cons a l => rfl
    rw [hov'] at h7 hsel ⊢
    by_cases hlen : 1 < ((applyPolicy env.srtExists false
        (videoFilesOf env)).1).length
    · have haff := h7 hlen
      simp [h1, h2, h3, h4, hEmpty, hov', hsel, hlen, haff]
    · simp [h1, h2, h3, h4, hEmpty, hov', hsel, hlen]


/-! ## Claim C6 (amended): an empty directory reports, exits 0, and the
probe does run first -/

/-- C6, amended. In a run that is not a dry run, whose target directory
exists, is a directory, and in which the engine probe succeeds: when no
video files are found the run reports it, exits with status 0, and the
capability probe has been performed (exactly once) — the probe runs before
scanning, so it is not skipped on an empty directory. -/
theorem empty_directory_run (env : Env) (args : Args)
    (h1 : env.rootExists = true) (h2 : env.rootIsDir = true)
    (h3 : args.dryRun = false) (h4 : env.whisperInstalled = true)
    (hv : videoFilesOf env = []) :
    (main env args).exitCode = 0 ∧
    "No video files found" ∈ (main env args).output ∧
    (main env args).events = [Event.probe] := by
  unfold main
  simp [h1, h2, h3, h4, hv]

/-- Witness for the amended C6 at a concrete empty directory. -/
theorem empty_directory_run_witness :
    videoFilesOf envEmpty = [] ∧
    (main envEmpty argsRun).exitCode = 0 ∧
    "No video files found" ∈ (main envEmpty argsRun).output ∧
    (main envEmpty argsRun).events = [Event.probe] := by
  have hv : videoFilesOf envEmpty = [] := by
    simp [videoFilesOf, envEmpty, find_video_files, walkMany, pySort]
  exact ⟨hv, empty_directory_run envEmpty argsRun rfl rfl rfl rfl hv⟩

/-- Counterexample to C6 as stated: an empty existing directory in a run
that is not a dry run, with the whisper CLI missing. The capability probe
is performed (the claim says it never is), the process exits 1 (the claim
says 0), and the no-videos message is never printed (the probe failure
aborts the run before scanning). -/
theorem empty_directory_claim_false :
    (main envEmptyNoWhisper argsRun).exitCode = 1 ∧
    "No video files found" ∉ (main envEmptyNoWhisper argsRun).output ∧
    Event.probe ∈ (main envEmptyNoWhisper argsRun).events := by
  decide

/-! ## Claim C3: dry-run performs no probe, no invocation, and records no
outcome -/

/-- C3. In every dry run the event trace is empty: the capability probe
never runs (the probe condition short-circuits on dry-run), the engine is
never invoked, and no Succeeded or Failed outcome is recorded. -/
theorem dry_run_no_side_effects (env : Env) (args : Args)
    (h : args.dryRun = true) :
    (main env args).events = [] ∧
    Event.probe ∉ (main env args).events ∧
    (∀ cmd, Event.engineInvoke cmd ∉ (main env args).events) ∧
    (∀ p b, Event.outcome p b ∉ (main env args).events) := by
  have hev : (main env args).events = [] := by
    unfold main
    simp [h]
    repeat (first | rfl | split)
  refine ⟨hev, ?_, ?_, ?_⟩
  · rw [hev]; exact List.not_mem_nil _
  · intro cmd; rw [hev]; exact List.not_mem_nil _
  · intro p b; rw [hev]; exact List.not_mem_nil _

/-- Witness for C3: a dry run over one video with the whisper CLI absent
still produces an empty event trace. -/
theorem dry_run_no_side_effects_witness :
    argsDry.dryRun = true ∧ (main envDry argsDry).events = [] :=
  ⟨rfl, (dry_run_no_side_effects envDry argsDry rfl).1⟩

/-! ## Claim C4: counters fold the outcomes and decide the exit status -/

/-- C4. Whenever a run reaches the batch loop, the aggregate counters are
the fold of the per-item outcomes, each selected item contributing exactly
once (successful plus failed equals the number of selected items), and the
process exit status is 0 when the failure counter is 0 and 1 otherwise. -/
theorem batch_accounting (env : Env) (args : Args)
    (h1 : env.rootExists = true) (h2 : env.rootIsDir = true)
    (h3 : args.dryRun = false) (h4 : env.whisperInstalled = true)
    (h5 : videoFilesOf env ≠ [])
    (h6 : args.overrideExisting = false → selectedOf env args ≠ [])
    (h7 : 1 < (selectedOf env args).length → affirmative env.response = true) :
    (main env args).successful =
      (selectedOf env args).countP (fun p => genOk env args p) ∧
    (main env args).failed =
      (selectedOf env args).countP (fun p => !genOk env args p) ∧
    (main env args).successful + (main env args).failed =
      (selectedOf env args).length ∧
    (main env args).exitCode = (if (main env args).failed = 0 then 0 else 1) := by
  obtain ⟨hs, hf, hx, _⟩ := main_batch env args h1 h2 h3 h4 h5 h6 h7
  obtain ⟨cs, cf⟩ := runBatch_counts env args (selectedOf env args)
  refine ⟨hs.trans cs, hf.trans cf, ?_, ?_⟩
  · rw [hs, hf, cs, cf]
    exact countP_not_add _ _
  · rw [hx, hf]

/-- Witness for C4, the scenario of the specification: three selected
videos, the engine exiting non-zero on the second one, giving successful 2,
failed 1, exit status 1. -/
theorem batch_accounting_witness :
    (main envThree argsRun).successful = 2 ∧
    (main envThree argsRun).failed = 1 ∧
    (main envThree argsRun).exitCode = 1 := by
  have hv3 : videoFilesOf envThree =
      [["r", "a.mp4"], ["r", "b.mp4"], ["r", "c.mp4"]] := by
    simp [videoFilesOf, envThree, find_video_files, walkMany]
    decide
  have hsel3 : selectedOf envThree argsRun =
      [["r", "a.mp4"], ["r", "b.mp4"], ["r", "c.mp4"]] := by
    rw [selectedOf, hv3]
    decide
  obtain ⟨hs, hf, _, hx⟩ := batch_accounting envThree argsRun rfl rfl rfl rfl
    (by rw [hv3]; decide) (fun _ => by rw [hsel3]; decide)
    (fun _ => by decide)
  rw [hsel3] at hs hf
  refine ⟨?_, ?_, ?_⟩
  · rw [hs]; decide
  · rw [hf]; decide
  · rw [hx, hf]; decide

/-! ## Claim C7: the confirmation gate -/

/-- C7. When a run reaches the confirmation gate (valid directory, engine
available, not a dry run, candidates remaining): with exactly one selected
candidate the gate proceeds to the batch without prompting; with two or
more it prompts, and a non-affirmative response cancels the run cleanly
with exit status 0 and nothing processed — and n, the empty string and no
are all non-affirmative. -/
theorem confirmation_gate (env : Env) (args : Args)
    (h1 : env.rootExists = true) (h2 : env.rootIsDir = true)
    (h3 : args.dryRun = false) (h4 : env.whisperInstalled = true)
    (h5 : videoFilesOf env ≠ [])
    (h6 : args.overrideExisting = false → selectedOf env args ≠ []) :
    ((selectedOf env args).length = 1 →
      Event.prompt ∉ (main env args).events ∧
      (main env args).events =
        Event.probe :: (runBatch env args (selectedOf env args)).events) ∧
    (1 < (selectedOf env args).length → affirmative env.response = false →
      (main env args).exitCode = 0 ∧
      Event.prompt ∈ (main env args).events ∧
      "Cancelled" ∈ (main env args).output ∧
      ∀ p b, Event.outcome p b ∉ (main env args).events) ∧
    (affirmative "n" = false ∧ affirmative "" = false ∧
      affirmative "no" = false) := by
  refine ⟨?_, ?_, by decide, by decide, by decide⟩
  · intro hlen
    have hb := main_batch env args h1 h2 h3 h4 h5 h6
      (fun hl => absurd hl (by omega))
    have hev := hb.2.2.2
    rw [if_neg (by omega)] at hev
    refine ⟨?_, by simpa using hev⟩
    rw [hev]
    intro hmem
    rcases List.mem_cons.mp hmem with h' | h'
    · exact Event.noConfusion h'
    · rw [runBatch_events] at h'
      obtain ⟨p, hp, hmem2⟩ := List.mem_flatMap.mp h'
      rcases List.mem_cons.mp hmem2 with h'' | h''
      · exact Event.noConfusion h''
      · rcases List.mem_cons.mp h'' with h3' | h3'
        · exact Event.noConfusion h3'
        · exact List.not_mem_nil _ h3'
  · intro hlen hresp
    obtain ⟨hc1, hc2, hc3, hc4, hc5⟩ :=
      main_cancel env args h1 h2 h3 h4 h5 h6 hlen hresp
    refine ⟨hc1, by rw [hc4]; simp, hc5, ?_⟩
    intro p b
    rw [hc4]
    simp

/-- Witness for C7: two selected candidates, the operator answering no:
the prompt happens, the run is cancelled with exit 0, nothing is
processed. -/
theorem confirmation_gate_witness :
    (main envTwo argsRun).exitCode = 0 ∧
    Event.prompt ∈ (main envTwo argsRun).events ∧
    "Cancelled" ∈ (main envTwo argsRun).output ∧
    Event.outcome ["r", "a.mp4"] true ∉ (main envTwo argsRun).events := by
  have hv : videoFilesOf envTwo = [["r", "a.mp4"], ["r", "b.mp4"]] := by
    simp [videoFilesOf, envTwo, find_video_files, walkMany]
    decide
  have hsel : selectedOf envTwo argsRun = [["r", "a.mp4"], ["r", "b.mp4"]] := by
    rw [selectedOf, hv]
    decide
  have hc := ((confirmation_gate envTwo argsRun rfl rfl rfl rfl
      (by rw [hv]; decide) (fun _ => by rw [hsel]; decide)).2.1
      (by rw [hsel]; decide) (by decide))
  exact ⟨hc.1, hc.2.1, hc.2.2.1, hc.2.2.2 _ _⟩

/-! ## Claim C9: engine launch failures are per-item -/

/-- C9. In every batch, every selected item yields exactly one recorded
outcome, in selection order; an item whose engine launch raises an
exception has its outcome recorded as Failed (generate_subtitle returns
false for that item), and all other items still produce their own
outcomes — the batch never aborts. -/
theorem launch_error_per_item (env : Env) (args : Args) (sel : List FsPath) :
    ((runBatch env args sel).events.filter isOutcomeEvent) =
      sel.map (fun p => Event.outcome p (genOk env args p)) ∧
    (∀ p msg, env.engine p = .launchError msg → genOk env args p = false) := by
  refine ⟨runBatch_outcomes env args sel, ?_⟩
  intro p msg h
  simp [genOk, generate_subtitle_ok, h]

/-- Witness for C9: the executable disappears while processing the first
of two items; the first outcome is Failed, the second is still processed
and Succeeded. -/
theorem launch_error_per_item_witness :
    ((runBatch envLaunch argsRun [["r", "a.mp4"], ["r", "b.mp4"]]).events.filter
        isOutcomeEvent) =
      [Event.outcome ["r", "a.mp4"] false, Event.outcome ["r", "b.mp4"] true] ∧
    genOk envLaunch argsRun ["r", "a.mp4"] = false := by
  obtain ⟨h1, h2⟩ :=
    launch_error_per_item envLaunch argsRun [["r", "a.mp4"], ["r", "b.mp4"]]
  refine ⟨?_, h2 _ "No such file or directory: whisper" rfl⟩
  rw [h1]
  decide

/-! ## Claim C8 (amended): the engine invocation contract -/

/-- C8, amended. Each processed item performs exactly one engine
invocation, whose argument vector is exactly: the whisper executable, the
target file path, the model selector, the output directory set to the
parent directory of the file itself, the output format fixed to srt, and
the language selector appended exactly when a non-empty language was
specified — Python `if language:` treats the empty string like an absent
language. -/
theorem engine_invocation_contract (env : Env) (p : FsPath) (m : String)
    (lang : Option String) :
    (generate_subtitle env p m lang).events =
      [Event.engineInvoke (whisperCmd p m lang)] ∧
    whisperCmd p m none =
      ["whisper", pathStr p, "--model", m,
       "--output_dir", pathStr p.dropLast, "--output_format", "srt"] ∧
    (∀ l, l ≠ "" →
      whisperCmd p m (some l) = whisperCmd p m none ++ ["--language", l]) ∧
    whisperCmd p m (some "") = whisperCmd p m none := by
  refine ⟨generate_subtitle_events env p m lang, by simp [whisperCmd], ?_,
    by simp [whisperCmd]⟩
  intro l hl
  simp [whisperCmd, hl]

/-- Witness for C8 at a concrete item with language en. -/
theorem engine_invocation_contract_witness :
    (generate_subtitle envThree ["r", "a.mp4"] "large-v3" (some "en")).events =
      [Event.engineInvoke (whisperCmd ["r", "a.mp4"] "large-v3" (some "en"))] ∧
    whisperCmd ["r", "a.mp4"] "large-v3" (some "en") =
      whisperCmd ["r", "a.mp4"] "large-v3" none ++ ["--language", "en"] := by
  obtain ⟨h1, _, h3, _⟩ :=
    engine_invocation_contract envThree ["r", "a.mp4"] "large-v3" (some "en")
  exact ⟨h1, h3 "en" (by decide)⟩

/-- Counterexample to C8 as stated: a language specified as the empty
string is a specified language whose selector is nevertheless omitted —
the command equals the no-language command — because the code tests Python
truthiness rather than presence. -/
theorem engine_invocation_empty_language :
    (some "").isSome = true ∧
    whisperCmd ["r", "a.mp4"] "large-v3" (some "") =
      whisperCmd ["r", "a.mp4"] "large-v3" none ∧
    "--language" ∉ whisperCmd ["r", "a.mp4"] "large-v3" (some "") := by
  refine ⟨rfl, rfl, ?_⟩
  decide

/-! ## Claim C10: the exact affirmative set of the prompt -/

/-- C10. The accepted affirmative set of the confirmation gate is exactly
the replies whose lowercased form is y or yes: the reply is lowercased but
never trimmed, so Y, YES and Yes are affirmative while replies with
surrounding whitespace, and every other string, are non-affirmative (and
cancel the run, by the gate theorem). -/
theorem affirmative_set (r : String) :
    (affirmative r = true ↔ pyLower r = "y" ∨ pyLower r = "yes") ∧
    affirmative "Y" = true ∧ affirmative "YES" = true ∧
    affirmative "Yes" = true ∧ affirmative " y" = false ∧
    affirmative "y " = false ∧ affirmative " yes" = false ∧
    affirmative "no" = false ∧ affirmative "" = false := by
  refine ⟨?_, by decide, by decide, by decide, by decide, by decide,
    by decide, by decide, by decide⟩
  simp [affirmative]

/-! ## Claim C5: permission errors during the walk -/

/-- C5, evaluation at the failing input: with a permission-denied
subdirectory (containing a video) next to an accessible sibling video, the
scan silently skips the protected subtree and continues — the sibling is
found, the protected file is not, the run completes with exit 0 — and no
warning line naming the inaccessible path is ever printed, although
src/subgen.py lines 40-41 show the intent to print exactly that warning:
os.walk is called with its default onerror=None, which swallows the
PermissionError before the except clause can see it. -/
theorem permission_denied_scan :
    find_video_files ["root"]
        [.dir "locked" true [.file "inside.mp4"], .file "video.mp4"] =
      [["root", "video.mp4"]] ∧
    noDenied [FSEntry.dir "locked" true [.file "inside.mp4"],
      .file "video.mp4"] = false ∧
    ("Warning: Permission denied accessing " ++ pathStr ["root", "locked"]) ∉
      (main envDenied argsRun).output ∧
    (main envDenied argsRun).exitCode = 0 := by
  have hw : walkMany ["root"]
      [FSEntry.dir "locked" true [.file "inside.mp4"], .file "video.mp4"] =
      [["root", "video.mp4"]] := by
    simp [walkMany]
  refine ⟨?_, by simp [noDenied], ?_, ?_⟩
  · rw [find_video_files, hw]
    decide
  · simp only [main, envDenied, argsRun, videoFilesOf, find_video_files, hw]
    decide
  · simp only [main, envDenied, argsRun, videoFilesOf, find_video_files, hw]
    decide

end Subgen
